import Mathlib

/-!
Verification of the `euler` linear-algebra crate (vector / matrix /
quaternion / TRS-transform value types wrapping `cgmath`).

Embedding conventions
=====================

The crate computes over IEEE-754 `f32` / `f64`.  Two scalar models are used:

* The *exact model* (`Euler` namespace, scalars `ℚ`): every finite IEEE
  value is a rational number, and at the concrete inputs the claims
  exercise (small integers and halves) every IEEE operation performed is
  exact, so `f32`/`f64` arithmetic coincides with exact rational
  arithmetic there.  Structural claims (field permutations, constructors,
  defaults) do not depend on rounding at all.

* The *extended model* (`Euler.Ieee` namespace, scalars `FP`): rationals
  extended with signed infinities and NaN, with the IEEE special-value
  propagation rules for the operations the code uses.  This model decides
  the claims about non-finite results (zero-vector `normalize`) and about
  the `f64 → f32` narrowing cast, where `FP.narrow` implements
  round-to-nearest-even at 24 significand bits.

The single- and double-precision variants of each type (`Vec2`/`DVec2`,
`Mat2`/`DMat2`, `Quat`/`DQuat`, …) are field-for-field identical in the
source and run the same algorithms, differing only in the scalar width;
both embed to the same definition here, with the width-dependent
tolerance kept as an explicit parameter where it matters (`tryInvert`).

Matrix layout: the source structs are `repr(C)` with fields
`m00, m01, …` transmuted to `[[f32; N]; N]` and handed to `cgmath`,
whose `From<[[S; N]; N]>` reads the *outer* index as the column; hence
field `mIJ` is column `I`, row `J`, and `cgmath`'s column-major
matrix-vector product gives `(M v).row j = Σ_i mIJ * v i`.  All matrix
operations below (`mulVec`, `mul`, `transpose`, `determinant`, `invert`)
are transcribed from the `cgmath` routines the crate delegates to,
specialised to that field naming.
-/

namespace Euler

/-- Single-precision 2D vector (`Vec2` in `src/vec.rs`), exact model. -/
structure Vec2 where
  x : ℚ
  y : ℚ
  deriving DecidableEq, Repr

/-- Single-precision 3D vector (`Vec3` in `src/vec.rs`), exact model. -/
structure Vec3 where
  x : ℚ
  y : ℚ
  z : ℚ
  deriving DecidableEq, Repr

/-- Single-precision 4D vector (`Vec4` in `src/vec.rs`), exact model. -/
structure Vec4 where
  x : ℚ
  y : ℚ
  z : ℚ
  w : ℚ
  deriving DecidableEq, Repr

/-- Rust `derive(Default)` for `Vec2`: every `f32` field defaults to `0.0`. -/
def Vec2.default : Vec2 := ⟨0, 0⟩

/-- Rust `derive(Default)` for `Vec3`. -/
def Vec3.default : Vec3 := ⟨0, 0, 0⟩

/-- Rust `derive(Default)` for `Vec4`. -/
def Vec4.default : Vec4 := ⟨0, 0, 0, 0⟩

/-- The `Vec2::zero()` constructor (`Default::default()` in the source). -/
def Vec2.zero : Vec2 := Vec2.default

/-- The `Vec3::zero()` constructor. -/
def Vec3.zero : Vec3 := Vec3.default

/-- The `Vec4::zero()` constructor. -/
def Vec4.zero : Vec4 := Vec4.default

/-- Single-precision 2x2 column-major matrix (`Mat2` in `src/mat.rs`).
Field `mIJ` is column `I`, row `J` under the transmute to `[[f32; 2]; 2]`. -/
structure Mat2 where
  m00 : ℚ
  m01 : ℚ
  m10 : ℚ
  m11 : ℚ
  deriving DecidableEq, Repr

/-- Single-precision 3x3 column-major matrix (`Mat3` in `src/mat.rs`). -/
structure Mat3 where
  m00 : ℚ
  m01 : ℚ
  m02 : ℚ
  m10 : ℚ
  m11 : ℚ
  m12 : ℚ
  m20 : ℚ
  m21 : ℚ
  m22 : ℚ
  deriving DecidableEq, Repr

/-- Single-precision 4x4 column-major matrix (`Mat4` in `src/mat.rs`). -/
structure Mat4 where
  m00 : ℚ
  m01 : ℚ
  m02 : ℚ
  m03 : ℚ
  m10 : ℚ
  m11 : ℚ
  m12 : ℚ
  m13 : ℚ
  m20 : ℚ
  m21 : ℚ
  m22 : ℚ
  m23 : ℚ
  m30 : ℚ
  m31 : ℚ
  m32 : ℚ
  m33 : ℚ
  deriving DecidableEq, Repr

/-- The `Mat2::tridiagonal(lo, di, up)` constructor:
`Mat2::new(di, up, lo, di)` (`src/mat.rs:43`). -/
def Mat2.tridiagonal (lo di up : ℚ) : Mat2 := ⟨di, up, lo, di⟩

/-- The `Mat2::diagonal(di)` constructor: `tridiagonal(0, di, 0)`. -/
def Mat2.diagonal (di : ℚ) : Mat2 := Mat2.tridiagonal 0 di 0

/-- The `Mat2::identity()` constructor: `diagonal(1)`. -/
def Mat2.identity : Mat2 := Mat2.diagonal 1

/-- The `Mat3::tridiagonal(lo, di, up)` constructor:
`Mat3::new(di, up, 0, lo, di, up, 0, lo, di)` (`src/mat.rs:254`). -/
def Mat3.tridiagonal (lo di up : ℚ) : Mat3 := ⟨di, up, 0, lo, di, up, 0, lo, di⟩

/-- The `Mat3::diagonal(di)` constructor. -/
def Mat3.diagonal (di : ℚ) : Mat3 := Mat3.tridiagonal 0 di 0

/-- The `Mat3::identity()` constructor. -/
def Mat3.identity : Mat3 := Mat3.diagonal 1

/-- The `Mat4::tridiagonal(lo, di, up)` constructor (`src/mat.rs:550`):
`Mat4::new(di, up, 0, 0, lo, di, up, 0, 0, lo, di, up, 0, 0, lo, di)`. -/
def Mat4.tridiagonal (lo di up : ℚ) : Mat4 :=
  ⟨di, up, 0, 0, lo, di, up, 0, 0, lo, di, up, 0, 0, lo, di⟩

/-- The `Mat4::diagonal(di)` constructor. -/
def Mat4.diagonal (di : ℚ) : Mat4 := Mat4.tridiagonal 0 di 0

/-- The `Mat4::identity()` constructor. -/
def Mat4.identity : Mat4 := Mat4.diagonal 1

/-- Rust `impl Default` for every matrix type returns `Self::identity()`
(`src/mat.rs:900`). -/
def Mat2.default : Mat2 := Mat2.identity

/-- Rust `impl Default` for `Mat3`. -/
def Mat3.default : Mat3 := Mat3.identity

/-- Rust `impl Default` for `Mat4`. -/
def Mat4.default : Mat4 := Mat4.identity

/-- Matrix-vector product `Mat2 * Vec2` (`src/mat.rs:863`), as computed by
the backing column-major routine: `(M v).row j = m0j * v.x + m1j * v.y`. -/
def Mat2.mulVec (m : Mat2) (v : Vec2) : Vec2 :=
  ⟨m.m00 * v.x + m.m10 * v.y,
   m.m01 * v.x + m.m11 * v.y⟩

/-- Matrix-vector product `Mat3 * Vec3`. -/
def Mat3.mulVec (m : Mat3) (v : Vec3) : Vec3 :=
  ⟨m.m00 * v.x + m.m10 * v.y + m.m20 * v.z,
   m.m01 * v.x + m.m11 * v.y + m.m21 * v.z,
   m.m02 * v.x + m.m12 * v.y + m.m22 * v.z⟩

/-- Matrix-vector product `Mat4 * Vec4`. -/
def Mat4.mulVec (m : Mat4) (v : Vec4) : Vec4 :=
  ⟨m.m00 * v.x + m.m10 * v.y + m.m20 * v.z + m.m30 * v.w,
   m.m01 * v.x + m.m11 * v.y + m.m21 * v.z + m.m31 * v.w,
   m.m02 * v.x + m.m12 * v.y + m.m22 * v.z + m.m32 * v.w,
   m.m03 * v.x + m.m13 * v.y + m.m23 * v.z + m.m33 * v.w⟩

/-- Matrix entry at (row `r`, column `c`) of a `Mat2`, read off the
matrix-vector multiply semantics: the coefficient of `v c` in
`(M v) r`.  Because the fields are column-major this is `m⟨c⟩⟨r⟩`. -/
def Mat2.entry (m : Mat2) (r c : Fin 2) : ℚ :=
  match c, r with
  | 0, 0 => m.m00
  | 0, 1 => m.m01
  | 1, 0 => m.m10
  | 1, 1 => m.m11

/-- Matrix entry at (row `r`, column `c`) of a `Mat3` under the
column-major multiply semantics. -/
def Mat3.entry (m : Mat3) (r c : Fin 3) : ℚ :=
  match c, r with
  | 0, 0 => m.m00
  | 0, 1 => m.m01
  | 0, 2 => m.m02
  | 1, 0 => m.m10
  | 1, 1 => m.m11
  | 1, 2 => m.m12
  | 2, 0 => m.m20
  | 2, 1 => m.m21
  | 2, 2 => m.m22

/-- Matrix entry at (row `r`, column `c`) of a `Mat4` under the
column-major multiply semantics. -/
def Mat4.entry (m : Mat4) (r c : Fin 4) : ℚ :=
  match c, r with
  | 0, 0 => m.m00
  | 0, 1 => m.m01
  | 0, 2 => m.m02
  | 0, 3 => m.m03
  | 1, 0 => m.m10
  | 1, 1 => m.m11
  | 1, 2 => m.m12
  | 1, 3 => m.m13
  | 2, 0 => m.m20
  | 2, 1 => m.m21
  | 2, 2 => m.m22
  | 2, 3 => m.m23
  | 3, 0 => m.m30
  | 3, 1 => m.m31
  | 3, 2 => m.m32
  | 3, 3 => m.m33

/-- Standard basis vector of `Vec2`. -/
def Vec2.basis (c : Fin 2) : Vec2 :=
  match c with
  | 0 => ⟨1, 0⟩
  | 1 => ⟨0, 1⟩

/-- Component accessor for `Vec2` by row index. -/
def Vec2.component (v : Vec2) (r : Fin 2) : ℚ :=
  match r with
  | 0 => v.x
  | 1 => v.y

/-- Matrix-matrix product `Mat2 * Mat2` (`src/mat.rs:890`), per the
backing column-major routine: column `I` of the product is `A` applied
to column `I` of `B`, so `(A B).mIJ = Σ_k A.m(k)(J) * B.m(I)(k)`. -/
def Mat2.mul (a b : Mat2) : Mat2 :=
  ⟨a.m00 * b.m00 + a.m10 * b.m01,
   a.m01 * b.m00 + a.m11 * b.m01,
   a.m00 * b.m10 + a.m10 * b.m11,
   a.m01 * b.m10 + a.m11 * b.m11⟩

/-- Matrix-matrix product `Mat3 * Mat3`. -/
def Mat3.mul (a b : Mat3) : Mat3 :=
  ⟨a.m00 * b.m00 + a.m10 * b.m01 + a.m20 * b.m02,
   a.m01 * b.m00 + a.m11 * b.m01 + a.m21 * b.m02,
   a.m02 * b.m00 + a.m12 * b.m01 + a.m22 * b.m02,
   a.m00 * b.m10 + a.m10 * b.m11 + a.m20 * b.m12,
   a.m01 * b.m10 + a.m11 * b.m11 + a.m21 * b.m12,
   a.m02 * b.m10 + a.m12 * b.m11 + a.m22 * b.m12,
   a.m00 * b.m20 + a.m10 * b.m21 + a.m20 * b.m22,
   a.m01 * b.m20 + a.m11 * b.m21 + a.m21 * b.m22,
   a.m02 * b.m20 + a.m12 * b.m21 + a.m22 * b.m22⟩

/-- Matrix-matrix product `Mat4 * Mat4`. -/
def Mat4.mul (a b : Mat4) : Mat4 :=
  ⟨a.m00 * b.m00 + a.m10 * b.m01 + a.m20 * b.m02 + a.m30 * b.m03,
   a.m01 * b.m00 + a.m11 * b.m01 + a.m21 * b.m02 + a.m31 * b.m03,
   a.m02 * b.m00 + a.m12 * b.m01 + a.m22 * b.m02 + a.m32 * b.m03,
   a.m03 * b.m00 + a.m13 * b.m01 + a.m23 * b.m02 + a.m33 * b.m03,
   a.m00 * b.m10 + a.m10 * b.m11 + a.m20 * b.m12 + a.m30 * b.m13,
   a.m01 * b.m10 + a.m11 * b.m11 + a.m21 * b.m12 + a.m31 * b.m13,
   a.m02 * b.m10 + a.m12 * b.m11 + a.m22 * b.m12 + a.m32 * b.m13,
   a.m03 * b.m10 + a.m13 * b.m11 + a.m23 * b.m12 + a.m33 * b.m13,
   a.m00 * b.m20 + a.m10 * b.m21 + a.m20 * b.m22 + a.m30 * b.m23,
   a.m01 * b.m20 + a.m11 * b.m21 + a.m21 * b.m22 + a.m31 * b.m23,
   a.m02 * b.m20 + a.m12 * b.m21 + a.m22 * b.m22 + a.m32 * b.m23,
   a.m03 * b.m20 + a.m13 * b.m21 + a.m23 * b.m22 + a.m33 * b.m23,
   a.m00 * b.m30 + a.m10 * b.m31 + a.m20 * b.m32 + a.m30 * b.m33,
   a.m01 * b.m30 + a.m11 * b.m31 + a.m21 * b.m32 + a.m31 * b.m33,
   a.m02 * b.m30 + a.m12 * b.m31 + a.m22 * b.m32 + a.m32 * b.m33,
   a.m03 * b.m30 + a.m13 * b.m31 + a.m23 * b.m32 + a.m33 * b.m33⟩

/-- The `transpose` operation on `Mat2` (`src/mat.rs:813`): the backing
routine swaps the off-diagonal pair, permuting fields only. -/
def Mat2.transpose (m : Mat2) : Mat2 := ⟨m.m00, m.m10, m.m01, m.m11⟩

/-- The `transpose` operation on `Mat3`. -/
def Mat3.transpose (m : Mat3) : Mat3 :=
  ⟨m.m00, m.m10, m.m20, m.m01, m.m11, m.m21, m.m02, m.m12, m.m22⟩

/-- The `transpose` operation on `Mat4`. -/
def Mat4.transpose (m : Mat4) : Mat4 :=
  ⟨m.m00, m.m10, m.m20, m.m30,
   m.m01, m.m11, m.m21, m.m31,
   m.m02, m.m12, m.m22, m.m32,
   m.m03, m.m13, m.m23, m.m33⟩

/-- The `determinant` of a `Mat2`, as the backing routine computes it:
`self[0][0] * self[1][1] - self[1][0] * self[0][1]`. -/
def Mat2.det (m : Mat2) : ℚ := m.m00 * m.m11 - m.m10 * m.m01

/-- The `determinant` of a `Mat3` (backing routine, expansion along the
first mathematical row). -/
def Mat3.det (m : Mat3) : ℚ :=
  m.m00 * (m.m11 * m.m22 - m.m21 * m.m12) -
  m.m10 * (m.m01 * m.m22 - m.m21 * m.m02) +
  m.m20 * (m.m01 * m.m12 - m.m11 * m.m02)

/-- Determinant of a 3x3 block given in mathematical row-major reading
order; helper for the 4x4 cofactor expansion. -/
def det3 (a b c d e f g h i : ℚ) : ℚ :=
  a * (e * i - f * h) - b * (d * i - f * g) + c * (d * h - e * g)

/-- The `determinant` of a `Mat4` (backing routine, cofactor expansion of
the first mathematical row; entry (row r, col c) is field `m(c)(r)`). -/
def Mat4.det (m : Mat4) : ℚ :=
  m.m00 * det3 m.m11 m.m21 m.m31 m.m12 m.m22 m.m32 m.m13 m.m23 m.m33 -
  m.m10 * det3 m.m01 m.m21 m.m31 m.m02 m.m22 m.m32 m.m03 m.m23 m.m33 +
  m.m20 * det3 m.m01 m.m11 m.m31 m.m02 m.m12 m.m32 m.m03 m.m13 m.m33 -
  m.m30 * det3 m.m01 m.m11 m.m21 m.m02 m.m12 m.m22 m.m03 m.m13 m.m23

/-- The value the backing `invert` routine returns for a `Mat2` once the
determinant passed the zero test: `Matrix2::new(m11/det, -m01/det,
-m10/det, m00/det)` (adjugate over determinant). -/
def Mat2.invertRaw (m : Mat2) : Mat2 :=
  let d := m.det
  ⟨m.m11 / d, -m.m01 / d, -m.m10 / d, m.m00 / d⟩

/-- The value the backing `invert` routine returns for a `Mat3` past the
zero test: the transposed cofactor matrix over the determinant. -/
def Mat3.invertRaw (m : Mat3) : Mat3 :=
  let d := m.det
  ⟨(m.m11 * m.m22 - m.m21 * m.m12) / d,
   -(m.m01 * m.m22 - m.m21 * m.m02) / d,
   (m.m01 * m.m12 - m.m11 * m.m02) / d,
   -(m.m10 * m.m22 - m.m20 * m.m12) / d,
   (m.m00 * m.m22 - m.m20 * m.m02) / d,
   -(m.m00 * m.m12 - m.m10 * m.m02) / d,
   (m.m10 * m.m21 - m.m20 * m.m11) / d,
   -(m.m00 * m.m21 - m.m20 * m.m01) / d,
   (m.m00 * m.m11 - m.m10 * m.m01) / d⟩

/-- The value the backing `invert` routine returns for a `Mat4` past the
zero test: the transposed cofactor matrix over the determinant.  Field
`m(I)(J)` of the result is the cofactor at (row `I`, col `J`) of the
input divided by the determinant. -/
def Mat4.invertRaw (m : Mat4) : Mat4 :=
  let d := m.det
  let c00 := det3 m.m11 m.m21 m.m31 m.m12 m.m22 m.m32 m.m13 m.m23 m.m33
  let c01 := -det3 m.m01 m.m21 m.m31 m.m02 m.m22 m.m32 m.m03 m.m23 m.m33
  let c02 := det3 m.m01 m.m11 m.m31 m.m02 m.m12 m.m32 m.m03 m.m13 m.m33
  let c03 := -det3 m.m01 m.m11 m.m21 m.m02 m.m12 m.m22 m.m03 m.m13 m.m23
  let c10 := -det3 m.m10 m.m20 m.m30 m.m12 m.m22 m.m32 m.m13 m.m23 m.m33
  let c11 := det3 m.m00 m.m20 m.m30 m.m02 m.m22 m.m32 m.m03 m.m23 m.m33
  let c12 := -det3 m.m00 m.m10 m.m30 m.m02 m.m12 m.m32 m.m03 m.m13 m.m33
  let c13 := det3 m.m00 m.m10 m.m20 m.m02 m.m12 m.m22 m.m03 m.m13 m.m23
  let c20 := det3 m.m10 m.m20 m.m30 m.m11 m.m21 m.m31 m.m13 m.m23 m.m33
  let c21 := -det3 m.m00 m.m20 m.m30 m.m01 m.m21 m.m31 m.m03 m.m23 m.m33
  let c22 := det3 m.m00 m.m10 m.m30 m.m01 m.m11 m.m31 m.m03 m.m13 m.m33
  let c23 := -det3 m.m00 m.m10 m.m20 m.m01 m.m11 m.m21 m.m03 m.m13 m.m23
  let c30 := -det3 m.m10 m.m20 m.m30 m.m11 m.m21 m.m31 m.m12 m.m22 m.m32
  let c31 := det3 m.m00 m.m20 m.m30 m.m01 m.m21 m.m31 m.m02 m.m22 m.m32
  let c32 := -det3 m.m00 m.m10 m.m30 m.m01 m.m11 m.m31 m.m02 m.m12 m.m32
  let c33 := det3 m.m00 m.m10 m.m20 m.m01 m.m11 m.m21 m.m02 m.m12 m.m22
  ⟨c00 / d, c01 / d, c02 / d, c03 / d,
   c10 / d, c11 / d, c12 / d, c13 / d,
   c20 / d, c21 / d, c22 / d, c23 / d,
   c30 / d, c31 / d, c32 / d, c33 / d⟩

/-- Default absolute tolerance of the approximate-equality layer at
single precision: the machine epsilon of `f32`, `2 ^ (-23)`. -/
def eps32 : ℚ := 1 / 2 ^ 23

/-- Default absolute tolerance at double precision: the machine epsilon
of `f64`, `2 ^ (-52)`. -/
def eps64 : ℚ := 1 / 2 ^ 52

/-- The zero test the backing `invert` routine applies to the
determinant before inverting (`ulps_eq!(det, &zero)` with the default
tolerances): the absolute-difference branch accepts exactly
`det.abs <= eps`, and for values beyond `eps` the units-in-last-place
branch can never fire against zero (negative values fail the sign test,
positive values beyond the epsilon are thousands of representable steps
away from `+0.0`), so the test is equivalent to `det.abs <= eps`. -/
def nearZero (eps d : ℚ) : Prop := |d| ≤ eps

instance (eps d : ℚ) : Decidable (nearZero eps d) := by
  unfold nearZero; infer_instance

/-- The `Mat2::try_invert` operation (`src/mat.rs:824`): `None` when the
backing routine's zero test accepts the determinant, otherwise the
inverse.  `eps` is the width-dependent tolerance (`eps32` for `Mat2`,
`eps64` for `DMat2`). -/
def Mat2.tryInvert (eps : ℚ) (m : Mat2) : Option Mat2 :=
  if nearZero eps m.det then none else some m.invertRaw

/-- The `Mat3::try_invert` operation. -/
def Mat3.tryInvert (eps : ℚ) (m : Mat3) : Option Mat3 :=
  if nearZero eps m.det then none else some m.invertRaw

/-- The `Mat4::try_invert` operation. -/
def Mat4.tryInvert (eps : ℚ) (m : Mat4) : Option Mat4 :=
  if nearZero eps m.det then none else some m.invertRaw

/-- The `Mat2::inverse` operation (`src/mat.rs:808`):
`self.try_invert().unwrap()`.  The embedding returns `Option`; `none`
models the `unwrap` panic on a singular matrix. -/
def Mat2.inverse (eps : ℚ) (m : Mat2) : Option Mat2 := m.tryInvert eps

/-- The `Mat3::inverse` operation. -/
def Mat3.inverse (eps : ℚ) (m : Mat3) : Option Mat3 := m.tryInvert eps

/-- The `Mat4::inverse` operation. -/
def Mat4.inverse (eps : ℚ) (m : Mat4) : Option Mat4 := m.tryInvert eps

/-- Single-precision quaternion (`Quat` in `src/quat.rs`): vector part
`x, y, z` and scalar part `s`. -/
structure Quat where
  x : ℚ
  y : ℚ
  z : ℚ
  s : ℚ
  deriving DecidableEq, Repr

/-- The `Quat::identity()` constructor: `Quat::new(0, 0, 0, 1)`. -/
def Quat.identity : Quat := ⟨0, 0, 0, 1⟩

/-- Rust `impl Default` for `Quat` returns `Self::identity()`
(`src/quat.rs:148`). -/
def Quat.default : Quat := Quat.identity

/-- Hamilton product `Quat * Quat` (`src/quat.rs:132`), per the backing
routine. -/
def Quat.mul (a b : Quat) : Quat :=
  ⟨a.s * b.x + a.x * b.s + a.y * b.z - a.z * b.y,
   a.s * b.y + a.y * b.s + a.z * b.x - a.x * b.z,
   a.s * b.z + a.z * b.s + a.x * b.y - a.y * b.x,
   a.s * b.s - a.x * b.x - a.y * b.y - a.z * b.z⟩

/-- Interpretation of the transcendental scalar functions the quaternion
constructors call (`sin`, `cos`, `sqrt`).  The claims settled over the
exact model hold for every interpretation, so the functions are kept
abstract as a parameter instead of being pinned to one approximation. -/
structure TrigModel where
  tsin : ℚ → ℚ
  tcos : ℚ → ℚ
  tsqrt : ℚ → ℚ

/-- Vector normalization of the rotation axis inside `axis_angle`
(`axis.normalize()` in `src/quat.rs:52`): the backing routine scales by
the reciprocal magnitude. -/
def normalizeAxis (T : TrigModel) (x y z : ℚ) : ℚ × ℚ × ℚ :=
  let len := T.tsqrt (x * x + y * y + z * z)
  (x * (1 / len), y * (1 / len), z * (1 / len))

/-- The `Quat::axis_angle(axis, angle)` constructor (`src/quat.rs:50`):
normalizes `axis`, then builds the quaternion with scalar part
`cos(angle/2)` and vector part `axis * sin(angle/2)` per the backing
`from_axis_angle`. -/
def Quat.axisAngle (T : TrigModel) (axis : Vec3) (angle : ℚ) : Quat :=
  let n := normalizeAxis T axis.x axis.y axis.z
  ⟨n.1 * T.tsin (angle / 2),
   n.2.1 * T.tsin (angle / 2),
   n.2.2 * T.tsin (angle / 2),
   T.tcos (angle / 2)⟩

/-- Modelled from the spec: the `quat!(x, y, z; angle)` macro arm used by
`Quat::euler` (`src/quat.rs:41`).  The checked-in `macros.rs` revision
carries the same constructor under the spelling `quat!(x, y, z, angle)`,
which forwards to the axis-angle constructor
(`Quat::rotation_about_axis`, the earlier name of `Quat::axis_angle`);
the arm with the semicolon itself is not present in `src/`.  Both the
spec and the sibling macro revision make it the axis-angle rotation
about `(x, y, z)` by `angle` radians. -/
def quatBang (T : TrigModel) (x y z angle : ℚ) : Quat :=
  Quat.axisAngle T ⟨x, y, z⟩ angle

/-- The `Quat::euler(angles)` constructor (`src/quat.rs:40`): composes
`roll * pitch * yaw` where `roll = quat!(0,0,1; angles.z)`,
`pitch = quat!(1,0,0; angles.x)`, `yaw = quat!(0,1,0; angles.y)`. -/
def Quat.euler (T : TrigModel) (angles : Vec3) : Quat :=
  let roll := quatBang T 0 0 1 angles.z
  let pitch := quatBang T 1 0 0 angles.x
  let yaw := quatBang T 0 1 0 angles.y
  (roll.mul pitch).mul yaw

/-- The backing `Matrix4::from_translation(t)` constructor used by
`Trs::matrix` (`src/trs.rs:49`): identity with the translation in the
fourth column. -/
def translationMat4 (t : Vec3) : Mat4 :=
  ⟨1, 0, 0, 0,
   0, 1, 0, 0,
   0, 0, 1, 0,
   t.x, t.y, t.z, 1⟩

/-- The backing `Matrix4::from(Quaternion)` conversion used by
`Trs::matrix` (`src/trs.rs:51`): the standard homogeneous rotation
matrix of the quaternion. -/
def quatToMat4 (q : Quat) : Mat4 :=
  let x2 := q.x + q.x
  let y2 := q.y + q.y
  let z2 := q.z + q.z
  let xx2 := x2 * q.x
  let xy2 := x2 * q.y
  let xz2 := x2 * q.z
  let yy2 := y2 * q.y
  let yz2 := y2 * q.z
  let zz2 := z2 * q.z
  let sy2 := y2 * q.s
  let sz2 := z2 * q.s
  let sx2 := x2 * q.s
  ⟨1 - yy2 - zz2, xy2 + sz2, xz2 - sy2, 0,
   xy2 - sz2, 1 - xx2 - zz2, yz2 + sx2, 0,
   xz2 + sy2, yz2 - sx2, 1 - xx2 - yy2, 0,
   0, 0, 0, 1⟩

/-- The backing `Matrix4::from_nonuniform_scale(x, y, z)` constructor
used by `Trs::matrix` (`src/trs.rs:54`). -/
def scaleMat4 (s : Vec3) : Mat4 :=
  ⟨s.x, 0, 0, 0,
   0, s.y, 0, 0,
   0, 0, s.z, 0,
   0, 0, 0, 1⟩

/-- Translation + rotation + non-uniform scale transform (`Trs` in
`src/trs.rs`). -/
structure Trs where
  t : Vec3
  r : Quat
  s : Vec3
  deriving DecidableEq, Repr

/-- The `Trs::matrix()` operation (`src/trs.rs:48`): computes `t * r * s`
over the backing 4x4 matrices (left-associated, as in the source). -/
def Trs.matrix (trs : Trs) : Mat4 :=
  ((translationMat4 trs.t).mul (quatToMat4 trs.r)).mul (scaleMat4 trs.s)

/-- Conversion `From<[f32; 2]> for Vec2` (transmute of the `repr(C)`
field block; fields in declaration order `x, y`). -/
def Vec2.fromArray (a : ℚ × ℚ) : Vec2 := ⟨a.1, a.2⟩

/-- Conversion `Into<[f32; 2]> for Vec2`. -/
def Vec2.toArray (v : Vec2) : ℚ × ℚ := (v.x, v.y)

/-- Conversion `From<[f32; 3]> for Vec3`. -/
def Vec3.fromArray (a : ℚ × ℚ × ℚ) : Vec3 := ⟨a.1, a.2.1, a.2.2⟩

/-- Conversion `Into<[f32; 3]> for Vec3`. -/
def Vec3.toArray (v : Vec3) : ℚ × ℚ × ℚ := (v.x, v.y, v.z)

/-- Conversion `From<[f32; 4]> for Vec4`. -/
def Vec4.fromArray (a : ℚ × ℚ × ℚ × ℚ) : Vec4 := ⟨a.1, a.2.1, a.2.2.1, a.2.2.2⟩

/-- Conversion `Into<[f32; 4]> for Vec4`. -/
def Vec4.toArray (v : Vec4) : ℚ × ℚ × ℚ × ℚ := (v.x, v.y, v.z, v.w)

/-- Conversion `From<[f32; 4]> for Quat` (`src/quat.rs:160`):
`Self::new(q[0], q[1], q[2], q[3])` filling `x, y, z, s`. -/
def Quat.fromArray (a : ℚ × ℚ × ℚ × ℚ) : Quat := ⟨a.1, a.2.1, a.2.2.1, a.2.2.2⟩

/-- Conversion `Into<[f32; 4]> for Quat` (`src/quat.rs:166`):
`[x, y, z, s]`. -/
def Quat.toArray (q : Quat) : ℚ × ℚ × ℚ × ℚ := (q.x, q.y, q.z, q.s)

/-- Conversion `From<[[f32; 2]; 2]> for Mat2` (transmute; outer index is
the column). -/
def Mat2.fromArray (a : (ℚ × ℚ) × (ℚ × ℚ)) : Mat2 :=
  ⟨a.1.1, a.1.2, a.2.1, a.2.2⟩

/-- Conversion `Into<[[f32; 2]; 2]> for Mat2`. -/
def Mat2.toArray (m : Mat2) : (ℚ × ℚ) × (ℚ × ℚ) :=
  ((m.m00, m.m01), (m.m10, m.m11))

/-- Conversion `From<[[f32; 3]; 3]> for Mat3`. -/
def Mat3.fromArray (a : (ℚ × ℚ × ℚ) × (ℚ × ℚ × ℚ) × (ℚ × ℚ × ℚ)) : Mat3 :=
  ⟨a.1.1, a.1.2.1, a.1.2.2,
   a.2.1.1, a.2.1.2.1, a.2.1.2.2,
   a.2.2.1, a.2.2.2.1, a.2.2.2.2⟩

/-- Conversion `Into<[[f32; 3]; 3]> for Mat3`. -/
def Mat3.toArray (m : Mat3) : (ℚ × ℚ × ℚ) × (ℚ × ℚ × ℚ) × (ℚ × ℚ × ℚ) :=
  ((m.m00, m.m01, m.m02), (m.m10, m.m11, m.m12), (m.m20, m.m21, m.m22))

/-- Conversion `From<[[f32; 4]; 4]> for Mat4`. -/
def Mat4.fromArray
    (a : (ℚ × ℚ × ℚ × ℚ) × (ℚ × ℚ × ℚ × ℚ) × (ℚ × ℚ × ℚ × ℚ) × (ℚ × ℚ × ℚ × ℚ)) :
    Mat4 :=
  ⟨a.1.1, a.1.2.1, a.1.2.2.1, a.1.2.2.2,
   a.2.1.1, a.2.1.2.1, a.2.1.2.2.1, a.2.1.2.2.2,
   a.2.2.1.1, a.2.2.1.2.1, a.2.2.1.2.2.1, a.2.2.1.2.2.2,
   a.2.2.2.1, a.2.2.2.2.1, a.2.2.2.2.2.1, a.2.2.2.2.2.2⟩

/-- Conversion `Into<[[f32; 4]; 4]> for Mat4`. -/
def Mat4.toArray (m : Mat4) :
    (ℚ × ℚ × ℚ × ℚ) × (ℚ × ℚ × ℚ × ℚ) × (ℚ × ℚ × ℚ × ℚ) × (ℚ × ℚ × ℚ × ℚ) :=
  ((m.m00, m.m01, m.m02, m.m03),
   (m.m10, m.m11, m.m12, m.m13),
   (m.m20, m.m21, m.m22, m.m23),
   (m.m30, m.m31, m.m32, m.m33))

/-- Scalar approximate equality of the `approx` crate
(`relative_eq` with explicit tolerances): exact equality, or absolute
difference within `eps`, or within `maxRel` of the larger magnitude. -/
def relEq (eps maxRel a b : ℚ) : Prop :=
  a = b ∨ |a - b| ≤ eps ∨ |a - b| ≤ max |a| |b| * maxRel

instance (eps maxRel a b : ℚ) : Decidable (relEq eps maxRel a b) := by
  unfold relEq; infer_instance

/-- Componentwise approximate equality of `Vec4` under the default
single-precision tolerances (`epsilon = max_relative = f32 machine
epsilon`), as the crate's `ApproxEq` instance compares vectors. -/
def Vec4.relEqDefault (a b : Vec4) : Prop :=
  relEq eps32 eps32 a.x b.x ∧ relEq eps32 eps32 a.y b.y ∧
  relEq eps32 eps32 a.z b.z ∧ relEq eps32 eps32 a.w b.w

instance (a b : Vec4) : Decidable (a.relEqDefault b) := by
  unfold Vec4.relEqDefault; infer_instance

namespace Ieee

/-- IEEE-style extended scalar: a finite value (exact rational), a signed
infinity (`true` = negative), or NaN.  Finite arithmetic is carried out
exactly; the special-value propagation rules below follow IEEE 754 for
the operations the code performs.  Signed zero is not modelled (zero is
`+0`), which matches every use in the claims. -/
inductive FP where
  | nan : FP
  | inf : Bool → FP
  | fin : ℚ → FP
  deriving DecidableEq, Repr

/-- Whether the scalar is a finite value. -/
def FP.isFinite : FP → Bool
  | .fin _ => true
  | _ => false

/-- IEEE addition on the extended scalars. -/
def FP.add : FP → FP → FP
  | .nan, _ => .nan
  | _, .nan => .nan
  | .inf s, .inf t => if s = t then .inf s else .nan
  | .inf s, .fin _ => .inf s
  | .fin _, .inf t => .inf t
  | .fin a, .fin b => .fin (a + b)

/-- IEEE multiplication on the extended scalars; in particular
`0 * inf = nan`. -/
def FP.mul : FP → FP → FP
  | .nan, _ => .nan
  | _, .nan => .nan
  | .inf s, .inf t => .inf (Bool.xor s t)
  | .inf s, .fin b => if b = 0 then .nan else .inf (Bool.xor s (decide (b < 0)))
  | .fin a, .inf t => if a = 0 then .nan else .inf (Bool.xor (decide (a < 0)) t)
  | .fin a, .fin b => .fin (a * b)

/-- IEEE division on the extended scalars; in particular
`x / 0 = inf` for finite nonzero `x` and `0 / 0 = nan`. -/
def FP.div : FP → FP → FP
  | .nan, _ => .nan
  | _, .nan => .nan
  | .inf _, .inf _ => .nan
  | .inf s, .fin b => .inf (Bool.xor s (decide (b < 0)))
  | .fin _, .inf _ => .fin 0
  | .fin a, .fin b =>
    if b = 0 then (if a = 0 then .nan else .inf (decide (a < 0))) else .fin (a / b)

/-- Rational square-root approximation used for finite arguments:
`sqrt (n / d) = sqrt (n * d) / d` computed with the integer square
root.  It is exact at `0`, `1` and every perfect square — the only
points any claim evaluates it at; the rounding IEEE would apply to
irrational square roots is not modelled and is not relied on. -/
def ratSqrt (q : ℚ) : ℚ := (Nat.sqrt (q.num.toNat * q.den) : ℚ) / (q.den : ℚ)

/-- IEEE square root on the extended scalars. -/
def FP.sqrt : FP → FP
  | .nan => .nan
  | .inf s => if s then .nan else .inf false
  | .fin q => if q < 0 then .nan else .fin (ratSqrt q)

/-- 2D vector over the extended scalars (`Vec2` of `src/vec.rs` where
non-finite behaviour matters). -/
structure Vec2 where
  x : FP
  y : FP
  deriving DecidableEq, Repr

/-- 3D vector over the extended scalars. -/
structure Vec3 where
  x : FP
  y : FP
  z : FP
  deriving DecidableEq, Repr

/-- 4D vector over the extended scalars. -/
structure Vec4 where
  x : FP
  y : FP
  z : FP
  w : FP
  deriving DecidableEq, Repr

/-- The `Vec2::zero()` value (all fields `0.0`). -/
def Vec2.zero : Vec2 := ⟨.fin 0, .fin 0⟩

/-- The `Vec3::zero()` value. -/
def Vec3.zero : Vec3 := ⟨.fin 0, .fin 0, .fin 0⟩

/-- The `Vec4::zero()` value. -/
def Vec4.zero : Vec4 := ⟨.fin 0, .fin 0, .fin 0, .fin 0⟩

/-- The `dot` product (`src/vec.rs:371`, via the backing
`x*x + y*y` sum). -/
def Vec2.dot (a b : Vec2) : FP := (a.x.mul b.x).add (a.y.mul b.y)

/-- The `dot` product for 3D vectors (left-associated sum). -/
def Vec3.dot (a b : Vec3) : FP :=
  ((a.x.mul b.x).add (a.y.mul b.y)).add (a.z.mul b.z)

/-- The `dot` product for 4D vectors (left-associated sum). -/
def Vec4.dot (a b : Vec4) : FP :=
  (((a.x.mul b.x).add (a.y.mul b.y)).add (a.z.mul b.z)).add (a.w.mul b.w)

/-- The `length` operation (`src/vec.rs:379`): the backing `magnitude`
is `sqrt (dot self self)`. -/
def Vec2.length (v : Vec2) : FP := (v.dot v).sqrt

/-- The `length` operation for 3D vectors. -/
def Vec3.length (v : Vec3) : FP := (v.dot v).sqrt

/-- The `length` operation for 4D vectors. -/
def Vec4.length (v : Vec4) : FP := (v.dot v).sqrt

/-- The `normalize` operation (`src/vec.rs:397`): the backing routine
computes `self * (1 / magnitude)` componentwise — there is no panic
path, all division-by-zero behaviour propagates through IEEE
arithmetic. -/
def Vec2.normalize (v : Vec2) : Vec2 :=
  let k := (FP.fin 1).div v.length
  ⟨v.x.mul k, v.y.mul k⟩

/-- The `normalize` operation for 3D vectors. -/
def Vec3.normalize (v : Vec3) : Vec3 :=
  let k := (FP.fin 1).div v.length
  ⟨v.x.mul k, v.y.mul k, v.z.mul k⟩

/-- The `normalize` operation for 4D vectors. -/
def Vec4.normalize (v : Vec4) : Vec4 :=
  let k := (FP.fin 1).div v.length
  ⟨v.x.mul k, v.y.mul k, v.z.mul k, v.w.mul k⟩

/-- Representability of an extended scalar at `p` significand bits: a
finite value must be an integer multiple of a power of two with the
multiplier below `2 ^ p`; non-finite values are representable at every
width. -/
def FPRepr (p : ℕ) : FP → Prop
  | .fin q => ∃ m e : ℤ, |m| < 2 ^ p ∧ q = (m : ℚ) * 2 ^ e
  | _ => True

/-- The widening `f32 as f64` cast (per-component in
`From<Vec2> for DVec2`, `src/vec.rs:208`): exact by IEEE 754, since
every binary32 value is a binary64 value; it preserves the modelled
value. -/
def FP.widen : FP → FP
  | .nan => .nan
  | .inf s => .inf s
  | .fin q => .fin q

/-- Round a rational to the nearest integer, ties to even. -/
def rne (z : ℚ) : ℤ :=
  let fl := ⌊z⌋
  let frac := z - fl
  if frac < 1 / 2 then fl
  else if 1 / 2 < frac then fl + 1
  else if fl % 2 = 0 then fl else fl + 1

/-- Round a nonzero rational to `p` significand bits, to nearest, ties
to even: scale into integer range by the power of two fixed by the
binary logarithm, round to an integer, and scale back. -/
def roundQ (p : ℕ) (q : ℚ) : ℚ :=
  if q = 0 then 0
  else
    let E : ℤ := Int.log 2 |q| - ((p : ℤ) - 1)
    (rne (q * 2 ^ (-E)) : ℚ) * 2 ^ E

/-- The narrowing `f64 as f32` cast (per-component in
`From<DVec2> for Vec2`, `src/vec.rs:37`): total on every input — NaN and
infinities pass through, finite values are rounded to nearest-even at
the 24 significand bits of binary32.  (Saturation of finite values
beyond the binary32 exponent range to infinity is not modelled, as the
model's exponents are unbounded; no claim exercises it.) -/
def FP.narrow : FP → FP
  | .nan => .nan
  | .inf s => .inf s
  | .fin q => .fin (roundQ 24 q)

/-- Conversion `From<Vec2> for DVec2` (`src/vec.rs:208`): each component
cast with `as f64`. -/
def Vec2.toDouble (v : Vec2) : Vec2 := ⟨v.x.widen, v.y.widen⟩

/-- Conversion `From<DVec2> for Vec2` (`src/vec.rs:37`): each component
cast with `as f32`. -/
def Vec2.toSingle (v : Vec2) : Vec2 := ⟨v.x.narrow, v.y.narrow⟩

/-- Conversion `From<Vec3> for DVec3` (`src/vec.rs:258`). -/
def Vec3.toDouble (v : Vec3) : Vec3 := ⟨v.x.widen, v.y.widen, v.z.widen⟩

/-- Conversion `From<DVec3> for Vec3` (`src/vec.rs:87`). -/
def Vec3.toSingle (v : Vec3) : Vec3 := ⟨v.x.narrow, v.y.narrow, v.z.narrow⟩

/-- Conversion `From<Vec4> for DVec4` (`src/vec.rs:321`). -/
def Vec4.toDouble (v : Vec4) : Vec4 := ⟨v.x.widen, v.y.widen, v.z.widen, v.w.widen⟩

/-- Conversion `From<DVec4> for Vec4` (`src/vec.rs:150`). -/
def Vec4.toSingle (v : Vec4) : Vec4 := ⟨v.x.narrow, v.y.narrow, v.z.narrow, v.w.narrow⟩

end Ieee

/-!
Shared lemmas, followed by one theorem per claim.
-/

set_option maxHeartbeats 2000000

/-- The inverse value returned for a 2x2 matrix with nonzero determinant
is a two-sided inverse. -/
theorem mat2_mul_invertRaw (m : Mat2) (h : m.det ≠ 0) :
    m.mul m.invertRaw = Mat2.identity ∧ m.invertRaw.mul m = Mat2.identity := by
  unfold Mat2.det at h
  simp only [Mat2.mul, Mat2.invertRaw, Mat2.det, Mat2.identity, Mat2.diagonal,
    Mat2.tridiagonal]
  constructor <;>
  · rw [Mat2.mk.injEq]
    refine ⟨?_, ?_, ?_, ?_⟩ <;> field_simp <;> ring

/-- The inverse value returned for a 3x3 matrix with nonzero determinant
is a two-sided inverse. -/
theorem mat3_mul_invertRaw (m : Mat3) (h : m.det ≠ 0) :
    m.mul m.invertRaw = Mat3.identity ∧ m.invertRaw.mul m = Mat3.identity := by
  unfold Mat3.det at h
  simp only [Mat3.mul, Mat3.invertRaw, Mat3.det, Mat3.identity, Mat3.diagonal,
    Mat3.tridiagonal]
  constructor <;>
  · rw [Mat3.mk.injEq]
    refine ⟨?_, ?_, ?_, ?_, ?_, ?_, ?_, ?_, ?_⟩ <;> field_simp <;> ring

/-- The inverse value returned for a 4x4 matrix with nonzero determinant
is a two-sided inverse. -/
theorem mat4_mul_invertRaw (m : Mat4) (h : m.det ≠ 0) :
    m.mul m.invertRaw = Mat4.identity ∧ m.invertRaw.mul m = Mat4.identity := by
  unfold Mat4.det det3 at h
  simp only [Mat4.mul, Mat4.invertRaw, Mat4.det, det3, Mat4.identity,
    Mat4.diagonal, Mat4.tridiagonal]
  constructor <;>
  · rw [Mat4.mk.injEq]
    refine ⟨?_, ?_, ?_, ?_, ?_, ?_, ?_, ?_, ?_, ?_, ?_, ?_, ?_, ?_, ?_, ?_⟩ <;>
      field_simp <;> ring

/-- Rounding an integer-valued rational returns that integer. -/
theorem ieee_rne_intCast (n : ℤ) : Ieee.rne (n : ℚ) = n := by
  simp [Ieee.rne, Int.floor_intCast]

/-- Round-to-nearest at `p` significand bits fixes every value already
representable with `p` significand bits. -/
theorem ieee_roundQ_eq_self (p : ℕ) (m e : ℤ) (hm : |m| < 2 ^ p) :
    Ieee.roundQ p ((m : ℚ) * 2 ^ e) = (m : ℚ) * 2 ^ e := by
  by_cases hm0 : m = 0
  · subst hm0; simp [Ieee.roundQ]
  · set q : ℚ := (m : ℚ) * 2 ^ e with hq
    have h2 : (0:ℚ) < 2 := by norm_num
    have h2e : (0:ℚ) < 2 ^ e := zpow_pos h2 e
    have hmQ0 : ((m : ℚ)) ≠ 0 := Int.cast_ne_zero.mpr hm0
    have hq0 : q ≠ 0 := mul_ne_zero hmQ0 (ne_of_gt h2e)
    have habs : |q| = |(m:ℚ)| * 2 ^ e := by
      rw [hq, abs_mul, abs_of_pos h2e]
    have hqpos : 0 < |q| := abs_pos.mpr hq0
    set L : ℤ := Int.log 2 |q| with hL
    have hlow : (2:ℚ) ^ L ≤ |q| := by
      have := Int.zpow_log_le_self (b := 2) (by norm_num) hqpos
      exact_mod_cast this
    have hmQ : |(m:ℚ)| < 2 ^ (p:ℤ) := by
      rw [← Int.cast_abs, zpow_natCast]
      exact_mod_cast hm
    have hupp : |q| < 2 ^ (e + p) := by
      rw [habs, zpow_add₀ (by norm_num : (2:ℚ) ≠ 0)]
      rw [mul_comm ((2:ℚ)^e) _]
      exact mul_lt_mul_of_pos_right hmQ h2e
    have hLe : L < e + p := by
      have : (2:ℚ) ^ L < 2 ^ (e + p) := lt_of_le_of_lt hlow hupp
      exact (zpow_lt_zpow_iff_right₀ (by norm_num : (1:ℚ) < 2)).mp this
    set E : ℤ := L - ((p : ℤ) - 1) with hE
    have hEe : E ≤ e := by omega
    set k : ℕ := (e - E).toNat with hk
    have hkE : (k : ℤ) = e - E := Int.toNat_of_nonneg (by omega)
    have hscaled : q * 2 ^ (-E) = ((m * 2 ^ k : ℤ) : ℚ) := by
      push_cast
      rw [hq, mul_assoc, ← zpow_natCast (2:ℚ) k, hkE,
        ← zpow_add₀ (by norm_num : (2:ℚ) ≠ 0)]
      ring_nf
    rw [Ieee.roundQ, if_neg hq0]
    show (Ieee.rne (q * 2 ^ (-(Int.log 2 |q| - ((p : ℤ) - 1)))) : ℚ) *
        2 ^ (Int.log 2 |q| - ((p : ℤ) - 1)) = q
    rw [← hL, ← hE, hscaled, ieee_rne_intCast]
    push_cast
    rw [mul_assoc, ← zpow_natCast (2:ℚ) k, hkE,
      ← zpow_add₀ (by norm_num : (2:ℚ) ≠ 0), hq]
    ring_nf

/-- The narrowing cast is the identity on every extended scalar
representable at 24 significand bits (after an exact widening). -/
theorem ieee_narrow_widen_of_repr (x : Ieee.FP) (h : Ieee.FPRepr 24 x) :
    x.widen.narrow = x := by
  cases x with
  | nan => rfl
  | inf s => rfl
  | fin q =>
    obtain ⟨m, e, hm, hq⟩ := h
    show Ieee.FP.fin (Ieee.roundQ 24 q) = Ieee.FP.fin q
    rw [hq, ieee_roundQ_eq_self 24 m e hm]

/-- Claim C1: normalizing the zero vector does not panic for any of the
vector sizes — the operation is a total function through IEEE division
(the embedding has no panic path, mirroring the backing routine) — and
every component of the result is non-finite: `1 / 0 = +inf` and then
`0 * inf = NaN` propagate, so the zero vector normalizes to all-NaN.
The double-precision types run the identical algorithm at the wider
width and are covered by the same computation. -/
theorem claim_C1_normalize_zero_nonfinite :
    (Ieee.Vec2.zero.normalize = ⟨.nan, .nan⟩ ∧
      Ieee.Vec2.zero.normalize.x.isFinite = false ∧
      Ieee.Vec2.zero.normalize.y.isFinite = false) ∧
    (Ieee.Vec3.zero.normalize = ⟨.nan, .nan, .nan⟩ ∧
      Ieee.Vec3.zero.normalize.x.isFinite = false ∧
      Ieee.Vec3.zero.normalize.y.isFinite = false ∧
      Ieee.Vec3.zero.normalize.z.isFinite = false) ∧
    (Ieee.Vec4.zero.normalize = ⟨.nan, .nan, .nan, .nan⟩ ∧
      Ieee.Vec4.zero.normalize.x.isFinite = false ∧
      Ieee.Vec4.zero.normalize.y.isFinite = false ∧
      Ieee.Vec4.zero.normalize.z.isFinite = false ∧
      Ieee.Vec4.zero.normalize.w.isFinite = false) := by
  norm_num [Ieee.Vec2.zero, Ieee.Vec3.zero, Ieee.Vec4.zero,
    Ieee.Vec2.normalize, Ieee.Vec3.normalize, Ieee.Vec4.normalize,
    Ieee.Vec2.length, Ieee.Vec3.length, Ieee.Vec4.length,
    Ieee.Vec2.dot, Ieee.Vec3.dot, Ieee.Vec4.dot,
    Ieee.FP.mul, Ieee.FP.add, Ieee.FP.sqrt, Ieee.FP.div, Ieee.ratSqrt,
    Ieee.FP.isFinite]

/-- Claim C2: for every square matrix size, `try_invert` returns `None`
exactly when the determinant lies within the backing routine's zero
tolerance (`eps`, instantiated at the machine epsilon of the scalar
width: `eps32` for the single-precision types, `eps64` for the
double-precision ones — both covered by the `eps` parameter); `inverse`
panics on exactly those matrices (`none` models the `unwrap` panic); on
every other matrix both entry points return the same value, and that
value is a two-sided inverse.  In particular the all-zero 2x2 matrix
fails `try_invert`. -/
theorem claim_C2_try_invert_none_iff_near_zero_det (eps : ℚ) (heps : 0 ≤ eps) :
    ((Mat2.mk 0 0 0 0).tryInvert eps32 = none) ∧
    (∀ m : Mat2,
      (m.tryInvert eps = none ↔ |m.det| ≤ eps) ∧
      (|m.det| ≤ eps → m.inverse eps = none) ∧
      (eps < |m.det| →
        m.tryInvert eps = some m.invertRaw ∧ m.inverse eps = some m.invertRaw ∧
        m.mul m.invertRaw = Mat2.identity ∧ m.invertRaw.mul m = Mat2.identity)) ∧
    (∀ m : Mat3,
      (m.tryInvert eps = none ↔ |m.det| ≤ eps) ∧
      (|m.det| ≤ eps → m.inverse eps = none) ∧
      (eps < |m.det| →
        m.tryInvert eps = some m.invertRaw ∧ m.inverse eps = some m.invertRaw ∧
        m.mul m.invertRaw = Mat3.identity ∧ m.invertRaw.mul m = Mat3.identity)) ∧
    (∀ m : Mat4,
      (m.tryInvert eps = none ↔ |m.det| ≤ eps) ∧
      (|m.det| ≤ eps → m.inverse eps = none) ∧
      (eps < |m.det| →
        m.tryInvert eps = some m.invertRaw ∧ m.inverse eps = some m.invertRaw ∧
        m.mul m.invertRaw = Mat4.identity ∧ m.invertRaw.mul m = Mat4.identity)) := by
  refine ⟨?_, ?_, ?_, ?_⟩
  · simp [Mat2.tryInvert, nearZero, Mat2.det, eps32]
  · intro m
    refine ⟨?_, ?_, ?_⟩
    · by_cases h : nearZero eps m.det <;>
        simp [Mat2.tryInvert, h, nearZero] at *
    · intro h
      simp [Mat2.inverse, Mat2.tryInvert, nearZero, h]
    · intro h
      have hz : ¬ nearZero eps m.det := by unfold nearZero; exact not_le.mpr h
      have hd : m.det ≠ 0 := by
        intro h0
        rw [h0] at h
        simp at h
        exact absurd h (not_lt.mpr heps)
      have hinv := mat2_mul_invertRaw m hd
      exact ⟨by simp [Mat2.tryInvert, hz], by simp [Mat2.inverse, Mat2.tryInvert, hz],
        hinv.1, hinv.2⟩
  · intro m
    refine ⟨?_, ?_, ?_⟩
    · by_cases h : nearZero eps m.det <;>
        simp [Mat3.tryInvert, h, nearZero] at *
    · intro h
      simp [Mat3.inverse, Mat3.tryInvert, nearZero, h]
    · intro h
      have hz : ¬ nearZero eps m.det := by unfold nearZero; exact not_le.mpr h
      have hd : m.det ≠ 0 := by
        intro h0
        rw [h0] at h
        simp at h
        exact absurd h (not_lt.mpr heps)
      have hinv := mat3_mul_invertRaw m hd
      exact ⟨by simp [Mat3.tryInvert, hz], by simp [Mat3.inverse, Mat3.tryInvert, hz],
        hinv.1, hinv.2⟩
  · intro m
    refine ⟨?_, ?_, ?_⟩
    · by_cases h : nearZero eps m.det <;>
        simp [Mat4.tryInvert, h, nearZero] at *
    · intro h
      simp [Mat4.inverse, Mat4.tryInvert, nearZero, h]
    · intro h
      have hz : ¬ nearZero eps m.det := by unfold nearZero; exact not_le.mpr h
      have hd : m.det ≠ 0 := by
        intro h0
        rw [h0] at h
        simp at h
        exact absurd h (not_lt.mpr heps)
      have hinv := mat4_mul_invertRaw m hd
      exact ⟨by simp [Mat4.tryInvert, hz], by simp [Mat4.inverse, Mat4.tryInvert, hz],
        hinv.1, hinv.2⟩

/-- Witness for claim C2 at concrete inputs: the all-zero 2x2 matrix
yields `None` under the single-precision tolerance, and the identity
matrix (determinant 1, far beyond the tolerance) inverts successfully. -/
theorem claim_C2_witness :
    (Mat2.mk 0 0 0 0).tryInvert eps32 = none ∧
    Mat2.identity.tryInvert eps32 = some Mat2.identity.invertRaw := by
  have h := claim_C2_try_invert_none_iff_near_zero_det eps32 (by norm_num [eps32])
  refine ⟨h.1, ?_⟩
  refine ((h.2.1 Mat2.identity).2.2 ?_).1
  norm_num [Mat2.identity, Mat2.diagonal, Mat2.tridiagonal, Mat2.det, eps32]

/-- Claim C3: `Trs::matrix()` is exactly the product
`Translation(t) * Rotation(r) * Scale(s)` of the backing matrices
(so a point is scaled first, then rotated, then translated), and at the
concrete transform `t = (1,0,0)`, `r` identity, `s = (2,2,2)` the matrix
maps the point `(1,0,0,1)` to `(3,0,0,1)` within the default epsilon.
`DTrs::matrix` is the identical algorithm at double width. -/
theorem claim_C3_trs_matrix_translation_rotation_scale :
    (∀ trs : Trs,
      trs.matrix =
        ((translationMat4 trs.t).mul (quatToMat4 trs.r)).mul (scaleMat4 trs.s)) ∧
    ((Trs.mk ⟨1, 0, 0⟩ Quat.identity ⟨2, 2, 2⟩).matrix.mulVec
        ⟨1, 0, 0, 1⟩).relEqDefault ⟨3, 0, 0, 1⟩ := by
  refine ⟨fun trs => rfl, ?_⟩
  norm_num [Trs.matrix, translationMat4, quatToMat4, scaleMat4, Quat.identity,
    Mat4.mul, Mat4.mulVec, Vec4.relEqDefault, relEq]

/-- Claim C5: for every interpretation of the transcendental functions
and every angles vector, `Quat::euler(angles)` is the composition
`roll * pitch * yaw` with `roll` the axis-angle rotation about Z by
`angles.z`, `pitch` about X by `angles.x`, and `yaw` about Y by
`angles.y` (left-associated product, as in the source).  `DQuat::euler`
is the identical algorithm at double width. -/
theorem claim_C5_euler_is_roll_mul_pitch_mul_yaw :
    ∀ (T : TrigModel) (angles : Vec3),
      Quat.euler T angles =
        ((Quat.axisAngle T ⟨0, 0, 1⟩ angles.z).mul
          (Quat.axisAngle T ⟨1, 0, 0⟩ angles.x)).mul
          (Quat.axisAngle T ⟨0, 1, 0⟩ angles.y) :=
  fun _ _ => rfl

/-- Claim C6: transpose is an involution with exact field equality on
every square matrix size — transpose only permutes fields, so no
floating-point operation is involved at all; both precisions share the
permutation. -/
theorem claim_C6_transpose_involution :
    (∀ m : Mat2, m.transpose.transpose = m) ∧
    (∀ m : Mat3, m.transpose.transpose = m) ∧
    (∀ m : Mat4, m.transpose.transpose = m) :=
  ⟨fun _ => rfl, fun _ => rfl, fun _ => rfl⟩

/-- Claim C7: for each of Vec2, Vec3, Vec4, Mat2, Mat3, Mat4 and Quat,
building the value from a fixed-size array and converting back to an
array reproduces the array exactly — both directions are plain field
shuffles of the `repr(C)` layout, so the round trip is the identity. -/
theorem claim_C7_array_roundtrip :
    (∀ a : ℚ × ℚ, (Vec2.fromArray a).toArray = a) ∧
    (∀ a : ℚ × ℚ × ℚ, (Vec3.fromArray a).toArray = a) ∧
    (∀ a : ℚ × ℚ × ℚ × ℚ, (Vec4.fromArray a).toArray = a) ∧
    (∀ a : (ℚ × ℚ) × (ℚ × ℚ), (Mat2.fromArray a).toArray = a) ∧
    (∀ a : (ℚ × ℚ × ℚ) × (ℚ × ℚ × ℚ) × (ℚ × ℚ × ℚ),
      (Mat3.fromArray a).toArray = a) ∧
    (∀ a : (ℚ × ℚ × ℚ × ℚ) × (ℚ × ℚ × ℚ × ℚ) × (ℚ × ℚ × ℚ × ℚ) × (ℚ × ℚ × ℚ × ℚ),
      (Mat4.fromArray a).toArray = a) ∧
    (∀ a : ℚ × ℚ × ℚ × ℚ, (Quat.fromArray a).toArray = a) :=
  ⟨fun _ => rfl, fun _ => rfl, fun _ => rfl, fun _ => rfl, fun _ => rfl,
    fun _ => rfl, fun _ => rfl⟩

/-- Claim C8: widening a single-precision vector to double precision is
exact (the cast preserves the value, component by component), and
narrowing back returns the original vector whenever the components are
representable at the 24 significand bits of binary32 — which every
single-precision value is; the narrowing cast is total and passes NaN
and the infinities through rather than failing. -/
theorem claim_C8_widen_narrow_roundtrip :
    (∀ x : Ieee.FP, x.widen = x) ∧
    (∀ v : Ieee.Vec2, Ieee.FPRepr 24 v.x → Ieee.FPRepr 24 v.y →
      v.toDouble.toSingle = v) ∧
    (∀ v : Ieee.Vec3, Ieee.FPRepr 24 v.x → Ieee.FPRepr 24 v.y →
      Ieee.FPRepr 24 v.z → v.toDouble.toSingle = v) ∧
    (∀ v : Ieee.Vec4, Ieee.FPRepr 24 v.x → Ieee.FPRepr 24 v.y →
      Ieee.FPRepr 24 v.z → Ieee.FPRepr 24 v.w → v.toDouble.toSingle = v) ∧
    (Ieee.FP.nan.narrow = Ieee.FP.nan ∧
      (Ieee.FP.inf false).narrow = Ieee.FP.inf false ∧
      (Ieee.FP.inf true).narrow = Ieee.FP.inf true) := by
  refine ⟨?_, ?_, ?_, ?_, rfl, rfl, rfl⟩
  · intro x
    cases x <;> rfl
  · intro v hx hy
    cases v with
    | mk x y =>
      show Ieee.Vec2.mk x.widen.narrow y.widen.narrow = Ieee.Vec2.mk x y
      rw [ieee_narrow_widen_of_repr x hx, ieee_narrow_widen_of_repr y hy]
  · intro v hx hy hz
    cases v with
    | mk x y z =>
      show Ieee.Vec3.mk x.widen.narrow y.widen.narrow z.widen.narrow =
        Ieee.Vec3.mk x y z
      rw [ieee_narrow_widen_of_repr x hx, ieee_narrow_widen_of_repr y hy,
        ieee_narrow_widen_of_repr z hz]
  · intro v hx hy hz hw
    cases v with
    | mk x y z w =>
      show Ieee.Vec4.mk x.widen.narrow y.widen.narrow z.widen.narrow
          w.widen.narrow = Ieee.Vec4.mk x y z w
      rw [ieee_narrow_widen_of_repr x hx, ieee_narrow_widen_of_repr y hy,
        ieee_narrow_widen_of_repr z hz, ieee_narrow_widen_of_repr w hw]

/-- Witness for claim C8: the vector `(3/2, -1/4)` (both components
binary32-representable, with NaN and infinity handled by separate
conjuncts of the theorem itself) survives the widen-then-narrow round
trip unchanged. -/
theorem claim_C8_witness :
    (Ieee.Vec2.mk (.fin (3 / 2)) (.fin (-1 / 4))).toDouble.toSingle =
      Ieee.Vec2.mk (.fin (3 / 2)) (.fin (-1 / 4)) :=
  claim_C8_widen_narrow_roundtrip.2.1 _
    ⟨3, -1, by norm_num, by norm_num⟩
    ⟨-1, -2, by norm_num, by norm_num⟩

/-- Claim C9: multiplying the 2x2 identity matrix by the vector
`(3, 4)` returns exactly that vector.  At these inputs every IEEE
operation performed (`1 * 3 + 0 * 4`, `0 * 3 + 1 * 4`) is exact, so the
rational computation coincides with the `f32` one. -/
theorem claim_C9_identity_mul_vector :
    Mat2.identity.mulVec ⟨3, 4⟩ = (⟨3, 4⟩ : Vec2) := by
  norm_num [Mat2.identity, Mat2.diagonal, Mat2.tridiagonal, Mat2.mulVec]

/-- Claim C10: the `Default` value of every matrix size and of the
quaternion is the identity — diagonal of ones for the matrices and
`(0, 0, 0, 1)` for the quaternion — and differs from the all-zero
value, while the `Default` value of every vector size is the zero
vector.  The double-precision types use the same `Default`
implementations at the wider width. -/
theorem claim_C10_default_values :
    (Mat2.default = Mat2.identity ∧ Mat2.identity = ⟨1, 0, 0, 1⟩ ∧
      Mat2.default ≠ ⟨0, 0, 0, 0⟩) ∧
    (Mat3.default = Mat3.identity ∧
      Mat3.identity = ⟨1, 0, 0, 0, 1, 0, 0, 0, 1⟩ ∧
      Mat3.default ≠ ⟨0, 0, 0, 0, 0, 0, 0, 0, 0⟩) ∧
    (Mat4.default = Mat4.identity ∧
      Mat4.identity = ⟨1, 0, 0, 0, 0, 1, 0, 0, 0, 0, 1, 0, 0, 0, 0, 1⟩ ∧
      Mat4.default ≠ ⟨0, 0, 0, 0, 0, 0, 0, 0, 0, 0, 0, 0, 0, 0, 0, 0⟩) ∧
    (Quat.default = Quat.identity ∧ Quat.identity = ⟨0, 0, 0, 1⟩ ∧
      Quat.default ≠ ⟨0, 0, 0, 0⟩) ∧
    (Vec2.default = Vec2.zero ∧ Vec2.zero = ⟨0, 0⟩) ∧
    (Vec3.default = Vec3.zero ∧ Vec3.zero = ⟨0, 0, 0⟩) ∧
    (Vec4.default = Vec4.zero ∧ Vec4.zero = ⟨0, 0, 0, 0⟩) := by
  norm_num [Mat2.default, Mat3.default, Mat4.default, Quat.default,
    Mat2.identity, Mat3.identity, Mat4.identity, Quat.identity,
    Mat2.diagonal, Mat3.diagonal, Mat4.diagonal,
    Mat2.tridiagonal, Mat3.tridiagonal, Mat4.tridiagonal,
    Vec2.default, Vec3.default, Vec4.default,
    Vec2.zero, Vec3.zero, Vec4.zero]

/-- Claim C4 counterexample: the claim places `lo` immediately below the
diagonal with respect to the column-major multiply semantics, but at
`tridiagonal(lo = 2, di = 1, up = 3)` the 2x2 entry at row 1, column 0
— both as read off the multiply against the first basis vector and as
the `entry` accessor — is `up = 3`, not `lo = 2`. -/
theorem claim_C4_counterexample :
    ((Mat2.tridiagonal 2 1 3).mulVec (Vec2.basis 0)).component 1 = 3 ∧
    (Mat2.tridiagonal 2 1 3).entry 1 0 = 3 ∧
    ¬ (Mat2.tridiagonal 2 1 3).entry 1 0 = 2 := by
  norm_num [Mat2.tridiagonal, Mat2.mulVec, Mat2.entry, Vec2.basis,
    Vec2.component]

/-- Claim C4 as amended: `tridiagonal(lo, d, up)` has `d` on every
diagonal entry, `up` on every entry immediately below the diagonal,
`lo` on every entry immediately above, and 0 elsewhere, with below and
above read with respect to the column-major multiply semantics (the
parameters land in the positions their names suggest only when the
field names are read as row-major).  Holds for all three sizes; both
precisions share the constructors. -/
theorem claim_C4_tridiagonal_banded :
    ∀ lo di up : ℚ,
      (∀ r c : Fin 2,
        (Mat2.tridiagonal lo di up).entry r c =
          if (r : ℕ) = (c : ℕ) then di
          else if (r : ℕ) = (c : ℕ) + 1 then up
          else if (c : ℕ) = (r : ℕ) + 1 then lo
          else 0) ∧
      (∀ r c : Fin 3,
        (Mat3.tridiagonal lo di up).entry r c =
          if (r : ℕ) = (c : ℕ) then di
          else if (r : ℕ) = (c : ℕ) + 1 then up
          else if (c : ℕ) = (r : ℕ) + 1 then lo
          else 0) ∧
      (∀ r c : Fin 4,
        (Mat4.tridiagonal lo di up).entry r c =
          if (r : ℕ) = (c : ℕ) then di
          else if (r : ℕ) = (c : ℕ) + 1 then up
          else if (c : ℕ) = (r : ℕ) + 1 then lo
          else 0) := by
  intro lo di up
  refine ⟨?_, ?_, ?_⟩ <;> intro r c <;> fin_cases r <;> fin_cases c <;>
    simp [Mat2.tridiagonal, Mat3.tridiagonal, Mat4.tridiagonal,
      Mat2.entry, Mat3.entry, Mat4.entry]

end Euler
